import Mathlib

set_option autoImplicit false

/-!
Verification of the reconciliation and metadata-acquisition core of the Haco
media-catalog application, shallowly embedded from `src/electron/library.ts`
and `src/electron/scraper.ts`.  Filesystem and network effects are passed in
explicitly (an oracle function per effect), all state is explicit, and every
definition mirrors the corresponding TypeScript function.
-/

namespace Haco

/-! ## String helpers mirroring the JavaScript primitives used by the code -/

/-- JavaScript `toLowerCase` on the character ranges that occur in this code
base: ASCII capital letters and fullwidth Latin capital letters.  Other
characters are left unchanged. -/
def jsLowerChar (c : Char) : Char :=
  if 'A' ≤ c ∧ c ≤ 'Z' then Char.ofNat (c.toNat + 32)
  else if 0xFF21 ≤ c.toNat ∧ c.toNat ≤ 0xFF3A then Char.ofNat (c.toNat + 32)
  else c

/-- JavaScript `String.prototype.toLowerCase`. -/
def jsLower (s : String) : String := String.mk (s.data.map jsLowerChar)

/-- JavaScript `toUpperCase` on the same ranges (ASCII and fullwidth). -/
def jsUpperChar (c : Char) : Char :=
  if 'a' ≤ c ∧ c ≤ 'z' then Char.ofNat (c.toNat - 32)
  else if 0xFF41 ≤ c.toNat ∧ c.toNat ≤ 0xFF5A then Char.ofNat (c.toNat - 32)
  else c

/-- JavaScript `String.prototype.toUpperCase`. -/
def jsUpper (s : String) : String := String.mk (s.data.map jsUpperChar)

/-- The code points matched by the JavaScript regexp class `\s`. -/
def jsSpaceCodes : List Nat :=
  [0x09, 0x0A, 0x0B, 0x0C, 0x0D, 0x20, 0xA0, 0x1680,
   0x2000, 0x2001, 0x2002, 0x2003, 0x2004, 0x2005, 0x2006, 0x2007,
   0x2008, 0x2009, 0x200A, 0x2028, 0x2029, 0x202F, 0x205F, 0x3000, 0xFEFF]

/-- Whether a character is whitespace in the JavaScript `\s` sense. -/
def jsIsSpace (c : Char) : Bool := jsSpaceCodes.contains c.toNat

/-- JavaScript `String.prototype.trim` (strips `\s` characters at both ends). -/
def jsTrim (s : String) : String :=
  String.mk (((s.data.dropWhile jsIsSpace).reverse.dropWhile jsIsSpace).reverse)

/-- The concatenation of all digit runs of a string:
`(s.match(/\d+/g) || []).join('')`.  JavaScript `\d` matches only the ASCII
digits, so this is just the subsequence of ASCII digit characters. -/
def jsDigits (s : String) : String :=
  String.mk (s.data.filter Char.isDigit)

/-! ## `isGoodMatch` (scraper.ts, lines 392-440) -/

/-- Fullwidth-to-halfwidth conversion:
`replace(/[！-～]/g, (m) => String.fromCharCode(m.charCodeAt(0) - 0xfee0))`. -/
def toHalfwidth (c : Char) : Char :=
  if 0xFF01 ≤ c.toNat ∧ c.toNat ≤ 0xFF5E then Char.ofNat (c.toNat - 0xFEE0) else c

/-- The bracket characters flattened to a space by `normalize`:
the class `[（）()\[\]【】{}<>]`. -/
def bracketCodes : List Nat :=
  [0xFF08, 0xFF09, 0x28, 0x29, 0x5B, 0x5D, 0x3010, 0x3011, 0x7B, 0x7D, 0x3C, 0x3E]

/-- Bracket flattening step of `normalize`. -/
def bracketToSpace (c : Char) : Char :=
  if bracketCodes.contains c.toNat then ' ' else c

/-- The `normalize` helper inside `isGoodMatch`: fullwidth to halfwidth, then
brackets to spaces, then removal of the class `[\s\-_]`. -/
def normalizeS (s : String) : String :=
  String.mk (((s.data.map toHalfwidth).map bracketToSpace).filter
    (fun c => !(jsIsSpace c || c == '-' || c == '_')))

/-- The censor glyphs of the regexp class `[〇○×✕●■＊\*]`. -/
def censorChars : List Char := ['〇', '○', '×', '✕', '●', '■', '＊', '*']

/-- Case-insensitive literal-word test at the head of a character list
(the behaviour of a `new RegExp(escapedWord, 'gi')` literal match). -/
def ciHeadMatch (w : List Char) (s : List Char) : Bool :=
  (w.map jsLowerChar).isPrefixOf (s.map jsLowerChar)

/-- Global, leftmost, non-overlapping case-insensitive replacement of the
literal word `w` by a run of dots of the same length, fuel-indexed for
termination (callers pass fuel larger than the list length, and `w` is
non-empty). -/
def replaceWordByDots (w : List Char) : Nat → List Char → List Char
  | 0, s => s
  | Nat.succ fuel, s =>
    match s with
    | [] => []
    | c :: rest =>
      if ciHeadMatch w s then
        List.replicate w.length '.' ++ replaceWordByDots w fuel (s.drop w.length)
      else c :: replaceWordByDots w fuel rest

/-- The `symbolToWildcard` helper of `isGoodMatch`: censor glyphs become a
dot, then every configured fuzzy word becomes a run of dots of the same
length (case-insensitive, non-empty words only).  The final escaping pass of
the source makes every remaining non-dot character a literal, which the token
representation below reflects directly. -/
def symbolToWildcard (fuzzyWords : List String) (s : String) : List Char :=
  let step1 := s.data.map (fun c => if censorChars.contains c then '.' else c)
  fuzzyWords.foldl
    (fun acc w =>
      if w.data.isEmpty then acc
      else replaceWordByDots w.data (acc.length + 1) acc)
    step1

/-- A token of the built pattern: a literal character or the single-character
wildcard `.` . -/
inductive PTok where
  | lit (c : Char)
  | anyc
deriving DecidableEq

/-- Interpretation of the escaped wildcard string as pattern tokens: a dot is
the wildcard, every other character is literal (the source escapes all other
regexp metacharacters). -/
def toPattern (cs : List Char) : List PTok :=
  cs.map (fun c => if c == '.' then PTok.anyc else PTok.lit c)

/-- A wildcard matches any character except the JavaScript line terminators;
a literal matches itself. -/
def tokMatch : PTok → Char → Bool
  | PTok.anyc, c => !([0x0A, 0x0D, 0x2028, 0x2029].contains c.toNat)
  | PTok.lit d, c => d == c

/-- Matching a token sequence against a prefix of a character list. -/
def matchAt : List PTok → List Char → Bool
  | [], _ => true
  | _ :: _, [] => false
  | t :: ts, c :: cs => tokMatch t c && matchAt ts cs

/-- `RegExp.prototype.test`: the pattern matches at some position of the
string (unanchored). -/
def reTest (pat : List PTok) (s : String) : Bool :=
  (List.range (s.data.length + 1)).any (fun i => matchAt pat (s.data.drop i))

/-- JavaScript `a.includes(b)`: `b` occurs as a contiguous substring of `a`. -/
def strContains (a b : String) : Bool :=
  (List.range (a.data.length + 1)).any (fun i => b.data.isPrefixOf (a.data.drop i))

/-- `isGoodMatch(query, target, fuzzyWords)` from scraper.ts lines 392-440:
lowercase and trim both strings, reject if the concatenated digit runs of the
two (pre-normalization) strings differ, otherwise build censor/fuzzy wildcard
patterns from both normalized strings and accept if either pattern matches
the other normalized string, falling back to mutual substring containment. -/
def isGoodMatch (query target : String) (fuzzyWords : List String) : Bool :=
  let q := jsTrim (jsLower query)
  let t := jsTrim (jsLower target)
  let nQ := normalizeS q
  let nT := normalizeS t
  let qNumStr := jsDigits q
  let tNumStr := jsDigits t
  if qNumStr != tNumStr then false
  else
    let qPattern := toPattern (symbolToWildcard fuzzyWords nQ)
    let tPattern := toPattern (symbolToWildcard fuzzyWords nT)
    if reTest qPattern nT || reTest tPattern nQ then true
    else strContains nQ nT || strContains nT nQ

/-! ## `generateWorkId` (library.ts, lines 213-233) -/

/-- JavaScript `ToInt32`: reduce an integer to the signed 32-bit range. -/
def js32 (n : Int) : Int := (n + 2147483648).emod 4294967296 - 2147483648

/-- The UTF-16 code units of a character, as produced by
`String.prototype.charCodeAt`. -/
def utf16Units (c : Char) : List Nat :=
  let n := c.toNat
  if n < 0x10000 then [n]
  else [0xD800 + (n - 0x10000) / 0x400, 0xDC00 + (n - 0x10000) % 0x400]

/-- The UTF-16 code units of a string. -/
def utf16Of (s : String) : List Nat := (s.data.map utf16Units).flatten

/-- One step of the rolling hash:
`hash = ((hash << 5) - hash) + charCode; hash = hash & hash`. -/
def hashStep (h : Int) (code : Nat) : Int := js32 (js32 (h * 32) - h + code)

/-- Suffix test on the character lists of two strings. -/
def strEndsWith (s suf : String) : Bool := suf.data.isSuffixOf s.data

/-- Strip a trailing archive extension, `replace(/\.(zip|cbz|rar)$/i, '')`. -/
def stripArchiveExt (name : String) : String :=
  let ln := jsLower name
  if strEndsWith ln ".zip" || strEndsWith ln ".cbz" || strEndsWith ln ".rar" then
    String.mk (name.data.take (name.data.length - 4))
  else name

/-- One base-36 digit, uppercased as by `toString(36).toUpperCase()`. -/
def b36digit (n : Nat) : Char :=
  if n < 10 then Char.ofNat (48 + n) else Char.ofNat (65 + n - 10)

/-- Base-36 digits of a natural number (fuel-indexed division recursion;
callers pass fuel at least the digit count, so `fuel = n + 1` is enough). -/
def natToB36 : Nat → Nat → List Char
  | 0, _ => []
  | Nat.succ fuel, n =>
    if n < 36 then [b36digit n]
    else natToB36 fuel (n / 36) ++ [b36digit (n % 36)]

/-- `Math.abs(hash).toString(36).toUpperCase()`. -/
def hashString (h : Int) : String := String.mk (natToB36 (h.natAbs + 1) h.natAbs)

/-- The local-identifier tag. -/
def localTag : String := "LOCAL_"

/-- `generateWorkId(name)` from library.ts lines 213-233: strip the archive
extension, run the 32-bit rolling hash over the UTF-16 code units of the
remaining characters, keep the first 20 alphanumeric ASCII characters as a
readable fragment, and prefix everything with the local tag. -/
def generateWorkId (name : String) : String :=
  let baseName := stripArchiveExt name
  let hash := (utf16Of baseName).foldl hashStep 0
  let hashStr := hashString hash
  let alphanumeric := (baseName.data.filter Char.isAlphanum).take 20
  if alphanumeric.length > 0 then
    localTag ++ (String.mk alphanumeric ++ "_" ++ hashStr)
  else
    localTag ++ hashStr

example : generateWorkId "My Comic.zip" = generateWorkId "My Comic.zip" := rfl
example : "LOCAL_MyComic_".data.isPrefixOf (generateWorkId "My Comic.zip").data = true := by
  decide

/-! ## Data model (types.ts) -/

/-- A cataloged item (`WorkInfo` in types.ts).  Optional fields of the
TypeScript interface are `Option`s here. -/
structure WorkInfo where
  rjCode : String
  title : String
  circle : String
  authors : List String
  tags : List String
  description : String
  thumbnailUrl : String
  localPath : String
  fetchedAt : String
  releaseDate : Option String
  ageRating : Option String
  workType : Option String
  isHidden : Option Bool
  lastReadAt : Option String
  lastReadPage : Option Nat
  totalPages : Option Nat
  sampleImages : Option (List String)
  isFavorite : Option Bool
  readingStatus : Option String
  bindingDirection : Option String
deriving DecidableEq

/-- Build a `WorkInfo` from the nine fields the scan code's object literals
set, leaving every optional field absent. -/
def mkBaseWork (rjCode title circle : String) (authors tags : List String)
    (description thumbnailUrl localPath fetchedAt : String) : WorkInfo :=
  ⟨rjCode, title, circle, authors, tags, description, thumbnailUrl, localPath,
   fetchedAt, none, none, none, none, none, none, none, none, none, none, none⟩

/-- One scanner candidate (`scanFolderForWorks` result entry). -/
structure Candidate where
  rjCode : String
  folderPath : String
  isArchive : Bool
deriving DecidableEq

/-- The `ScanResult` returned by `scanAndUpdateLibrary`. -/
structure ScanResult where
  success : Nat
  failed : Nat
  totalFolders : Nat
  newWorks : List String
  errors : List String
deriving DecidableEq

/-- The works map, as the ordered key-value entry list of the JavaScript
object (`Object.entries` order; keys unique in any state produced by the
code). -/
abbrev Works := List (String × WorkInfo)

/-- The persisted catalog document.  The `version` and `lastUpdated`
bookkeeping fields play no role in any claim and are omitted. -/
structure LibraryData where
  scanPaths : List String
  works : Works
deriving DecidableEq

/-- Object property lookup `works[k]`. -/
def wlookup (ws : Works) (k : String) : Option WorkInfo :=
  (ws.find? (fun e => e.fst == k)).map (fun e => e.snd)

/-- Object property assignment `works[k] = v`: overwrite in place when the
key exists, append otherwise. -/
def wset (ws : Works) (k : String) (v : WorkInfo) : Works :=
  if ws.any (fun e => e.fst == k) then
    ws.map (fun e => if e.fst == k then (k, v) else e)
  else ws ++ [(k, v)]

/-- Object property deletion `delete works[k]`. -/
def wdel (ws : Works) (k : String) : Works :=
  ws.filter (fun e => e.fst != k)

/-- Prefix test on the character lists of two strings
(JavaScript `String.prototype.startsWith`). -/
def strStarts (s p : String) : Bool := p.data.isPrefixOf s.data

/-! ## Reconciliation (scanAndUpdateLibrary, library.ts) -/

/-- The placeholder test of the rename-migration pass
(library.ts lines 370-376). -/
def isPlaceholderMig (w : WorkInfo) : Bool :=
  w.circle == "未取得" || w.circle == "エラー" || w.circle == "未登録" ||
  w.circle == "未設定" || w.tags.contains "未取得" || w.tags.contains "エラー"

/-- The placeholder test of the new/existing classification
(library.ts lines 394-402); it extends the migration test with the clause
for a catalog-coded record still marked as a local work. -/
def isPlaceholderClass (w : WorkInfo) : Bool :=
  w.circle == "未取得" || w.circle == "エラー" || w.circle == "未登録" ||
  w.circle == "未設定" || w.tags.contains "未取得" || w.tags.contains "エラー" ||
  (strStarts w.rjCode "RJ" && w.circle == "ローカル作品")

/-- Modelled from the spec (placeholder invariant, spec section 3), for
comparison with the code's predicates: circle or tags carry a sentinel
marker, or the record is a local-id record whose circle marks it as not
found online. -/
def specIsPlaceholder (w : WorkInfo) : Bool :=
  w.circle == "未取得" || w.circle == "エラー" || w.circle == "未登録" ||
  w.circle == "未設定" || w.tags.contains "未取得" || w.tags.contains "エラー" ||
  (strStarts w.rjCode "LOCAL_" && w.circle == "ローカル作品")

/-- The rename-migration step for one scanned candidate
(library.ts lines 362-387): find the first record whose `localPath` equals
the candidate's path; if its key differs from the candidate's id, either
drop it (placeholder) or carry it forward under the new id, and delete the
old key. -/
def migrateStep (c : Candidate) (ws : Works) : Works :=
  match ws.find? (fun e => e.snd.localPath == c.folderPath) with
  | none => ws
  | some e =>
    if e.fst == c.rjCode then ws
    else
      let ws1 :=
        if isPlaceholderMig e.snd then ws
        else wset ws c.rjCode { e.snd with rjCode := c.rjCode }
      wdel ws1 e.fst

/-- The full migration pass: one `migrateStep` per scanned candidate, in
scan order (library.ts lines 362-387). -/
def migratePass (found : List Candidate) (ws : Works) : Works :=
  found.foldl (fun acc c => migrateStep c acc) ws

/-- Classification of candidates as new (library.ts lines 389-405): no
record under the candidate's id, or a placeholder record. -/
def filterNewWorks (found : List Candidate) (ws : Works) : List Candidate :=
  found.filter (fun c =>
    match wlookup ws c.rjCode with
    | none => true
    | some w => isPlaceholderClass w)

/-- Classification of candidates as existing (library.ts lines 408-411). -/
def filterExistingWorks (found : List Candidate) (ws : Works) : List Candidate :=
  found.filter (fun c =>
    (wlookup ws c.rjCode).isSome &&
      !((filterNewWorks found ws).any (fun n => n.rjCode == c.rjCode)))

/-! ## The records the scan loop stores (library.ts lines 501-605) -/

/-- The fallback record for a local-id work that was not found online
(library.ts lines 513-523). -/
def localNotFoundWork (rjCode title localPath now : String) : WorkInfo :=
  mkBaseWork rjCode title "ローカル作品" [] ["ローカル"]
    "オンラインで情報が見つかりませんでした。" "" localPath now

/-- The fallback record when the title search threw
(library.ts lines 530-540). -/
def localSearchErrorWork (rjCode title localPath now : String) : WorkInfo :=
  mkBaseWork rjCode title "ローカル作品" [] ["ローカル"]
    "検索中にエラーが発生しました。" "" localPath now

/-- The fallback record when the catalog-code fetch found nothing
(library.ts lines 572-582). -/
def fetchFailedWork (rjCode title localPath now : String) : WorkInfo :=
  mkBaseWork rjCode title "未取得" [] ["未取得"]
    "情報の取得に失敗しました。" "" localPath now

/-- The fallback record when the catalog-code fetch threw
(library.ts lines 591-601). -/
def scrapeErrorWork (rjCode title localPath now msg : String) : WorkInfo :=
  mkBaseWork rjCode title "エラー" [] ["エラー"]
    ("エラーが発生しました: " ++ msg) "" localPath now

/-! ## The scan orchestrator (scanAndUpdateLibrary, library.ts lines 317-642)

Network and filesystem effects are oracle parameters:
`searchO` is `scrapeByTitleWithFallback` (arguments in source order: title,
localPath, workId, onlyDLsite, fuzzyWords; `Except.error` models a thrown
exception, `Except.ok none` a not-found result), `scrapeO` supplies the
content side of `scrapeWorkInfo`, `thumbO` the viewer's first-page image for
`ensureThumbnail`, `renameO` the outcome of the on-disk rename attempt
(whose only catalog-visible effect is a possibly-updated `localPath`), and
`fsExists` is `fs.existsSync`. -/

/-- `ensureThumbnail` (library.ts lines 12-35): keep an http/data thumbnail;
otherwise pull the first local page via the viewer (the oracle), also seeding
`sampleImages` when empty. -/
def ensureThumbnail (thumbO : WorkInfo → Option String) (w : WorkInfo) : WorkInfo :=
  if strStarts w.thumbnailUrl "http" || strStarts w.thumbnailUrl "data:" then w
  else
    match thumbO w with
    | none => w
    | some b64 =>
      let w1 := { w with thumbnailUrl := b64 }
      match w.sampleImages with
      | none => { w1 with sampleImages := some [b64] }
      | some [] => { w1 with sampleImages := some [b64] }
      | some _ => w1

/-- `scrapeWorkInfo` (scraper.ts lines 460-494): local ids are never fetched;
otherwise `parseDLsitePage` always builds the record with `rjCode` and
`localPath` set to the call's arguments, the oracle supplying the scraped
content. -/
def scrapeWorkInfoM (scrapeO : String → String → Except String (Option WorkInfo))
    (rjCode localPath : String) : Except String (Option WorkInfo) :=
  if strStarts rjCode "LOCAL_" then Except.ok none
  else
    match scrapeO rjCode localPath with
    | Except.error m => Except.error m
    | Except.ok none => Except.ok none
    | Except.ok (some w) => Except.ok (some { w with rjCode := rjCode, localPath := localPath })

/-- `path.basename` for the POSIX-style paths used here. -/
def basenameOf (p : String) : String :=
  String.mk ((p.data.reverse.takeWhile (fun c => c != '/')).reverse)

/-- The body of the per-candidate loop over new works
(library.ts lines 442-617), acting on the works map and the accumulated
`ScanResult`.  The inter-item delay has no effect on either and is omitted. -/
def processNew
    (searchO : String → String → String → Bool → List String → Except String (Option WorkInfo))
    (scrapeO : String → String → Except String (Option WorkInfo))
    (thumbO : WorkInfo → Option String)
    (renameO : WorkInfo → String → String → String)
    (onlyDLsite : Bool) (now : String)
    (st : Works × ScanResult) (c : Candidate) : Works × ScanResult :=
  let ws := st.1
  let res := st.2
  let titleFromFile := stripArchiveExt (basenameOf c.folderPath)
  if strStarts c.rjCode "LOCAL_" then
    match searchO titleFromFile c.folderPath c.rjCode onlyDLsite [] with
    | Except.ok (some workInfo) =>
      let finalRjCode := workInfo.rjCode
      let workInfo := { workInfo with localPath := renameO workInfo c.folderPath titleFromFile }
      let ws1 := wset ws finalRjCode (ensureThumbnail thumbO workInfo)
      let res1 := { res with success := res.success + 1,
                             newWorks := res.newWorks ++ [finalRjCode] }
      let ws2 :=
        if finalRjCode != c.rjCode && (wlookup ws1 c.rjCode).isSome then wdel ws1 c.rjCode
        else ws1
      (ws2, res1)
    | Except.ok none =>
      (wset ws c.rjCode
        (ensureThumbnail thumbO (localNotFoundWork c.rjCode titleFromFile c.folderPath now)),
       { res with success := res.success + 1,
                  newWorks := res.newWorks ++ [c.rjCode],
                  errors := res.errors ++ [titleFromFile ++ ": オンラインで情報が見つかりませんでした"] })
    | Except.error _ =>
      (wset ws c.rjCode
        (ensureThumbnail thumbO (localSearchErrorWork c.rjCode titleFromFile c.folderPath now)),
       { res with success := res.success + 1,
                  newWorks := res.newWorks ++ [c.rjCode] })
  else
    match scrapeWorkInfoM scrapeO c.rjCode c.folderPath with
    | Except.ok (some workInfo) =>
      (wset ws c.rjCode (ensureThumbnail thumbO workInfo),
       { res with success := res.success + 1,
                  newWorks := res.newWorks ++ [c.rjCode] })
    | Except.ok none =>
      (wset ws c.rjCode
        (ensureThumbnail thumbO (fetchFailedWork c.rjCode titleFromFile c.folderPath now)),
       { res with success := res.success + 1,
                  newWorks := res.newWorks ++ [c.rjCode],
                  errors := res.errors ++ [c.rjCode ++ ": 情報を取得できませんでした（仮登録）"] })
    | Except.error msg =>
      (wset ws c.rjCode
        (ensureThumbnail thumbO
          (scrapeErrorWork c.rjCode titleFromFile c.folderPath now msg)),
       { res with success := res.success + 1,
                  newWorks := res.newWorks ++ [c.rjCode],
                  errors := res.errors ++ [c.rjCode ++ ": エラーにより仮登録しました"] })

/-- `cleanupMissingWorks` (library.ts lines 794-813): remove every record
whose `localPath` no longer exists, report the removed keys, and persist
exactly when something was removed.  The code snapshots `Object.entries` and
deletes per key; as object keys are unique this equals the filter. -/
def cleanupMissingWorks (fsExists : String → Bool) (ws : Works) :
    Works × List String × Bool :=
  let removed := (ws.filter (fun e => !fsExists e.snd.localPath)).map (fun e => e.fst)
  let kept := ws.filter (fun e => fsExists e.snd.localPath)
  (kept, removed, !removed.isEmpty)

/-- The body of a non-guarded, non-empty scan (library.ts lines 360-617):
the rename-migration pass, the new/existing classification, the pre-removal
of records about to be rescraped, the path refresh of existing works, and
the per-candidate acquisition loop. -/
def scanMain
    (searchO : String → String → String → Bool → List String → Except String (Option WorkInfo))
    (scrapeO : String → String → Except String (Option WorkInfo))
    (thumbO : WorkInfo → Option String)
    (renameO : WorkInfo → String → String → String)
    (onlyDLsite : Bool) (now : String)
    (found : List Candidate) (total : Nat) (ws : Works) : Works × ScanResult :=
  let ws0 := migratePass found ws
  let newW := filterNewWorks found ws0
  let exW := filterExistingWorks found ws0
  let ws1 := newW.foldl (fun acc c => wdel acc c.rjCode) ws0
  let ws2 := exW.foldl (fun acc c =>
      match wlookup acc c.rjCode with
      | some w => wset acc c.rjCode (ensureThumbnail thumbO { w with localPath := c.folderPath })
      | none => acc) ws1
  newW.foldl (processNew searchO scrapeO thumbO renameO onlyDLsite now)
    (ws2, ⟨0, 0, total, [], []⟩)

/-- `scanAndUpdateLibrary` (library.ts lines 317-642).  `found` is the
`scanFolderForWorks` result for `scanPath`, `isScanningFlag` the module-wide
scan guard at entry, and `lib` the loaded catalog document.  The returned
document is the state the function leaves persisted.  Progress callbacks,
notifications and the inter-item delay have no effect on either component
and are omitted; `settings` is read only for that delay, so it does not
appear. -/
def scanAndUpdateLibrary
    (searchO : String → String → String → Bool → List String → Except String (Option WorkInfo))
    (scrapeO : String → String → Except String (Option WorkInfo))
    (thumbO : WorkInfo → Option String)
    (renameO : WorkInfo → String → String → String)
    (fsExists : String → Bool)
    (now : String)
    (scanPath : String) (onlyDLsite : Bool)
    (found : List Candidate)
    (isScanningFlag : Bool)
    (lib : LibraryData) : ScanResult × LibraryData :=
  if isScanningFlag then
    (⟨0, 0, 0, [], ["Already scanning"]⟩, lib)
  else
    let lib1 : LibraryData :=
      { lib with scanPaths :=
          if lib.scanPaths.contains scanPath then lib.scanPaths
          else lib.scanPaths ++ [scanPath] }
    if found.isEmpty then
      (⟨0, 0, 0, [], ["作品（フォルダまたはZIPファイル）が見つかりませんでした"]⟩, lib1)
    else
      let st := scanMain searchO scrapeO thumbO renameO onlyDLsite now found
        found.length lib1.works
      let cleaned := cleanupMissingWorks fsExists st.1
      (st.2, { lib1 with works := cleaned.1 })

/-! ## `updateWorkInfo` (library.ts lines 843-962) -/

/-- A `Partial<WorkInfo>`: a field is updated when present.  (Setting an
already-optional field explicitly to `undefined` is not representable; no
claim depends on it.) -/
structure WorkUpd where
  rjCode : Option String
  title : Option String
  circle : Option String
  authors : Option (List String)
  tags : Option (List String)
  description : Option String
  thumbnailUrl : Option String
  localPath : Option String
  fetchedAt : Option String
  releaseDate : Option String
  ageRating : Option String
  workType : Option String
  isHidden : Option Bool
  lastReadAt : Option String
  lastReadPage : Option Nat
  totalPages : Option Nat
  sampleImages : Option (List String)
  isFavorite : Option Bool
  readingStatus : Option String
  bindingDirection : Option String
deriving DecidableEq

/-- The empty update. -/
def noUpd : WorkUpd :=
  ⟨none, none, none, none, none, none, none, none, none, none, none, none,
   none, none, none, none, none, none, none, none⟩

/-- The object spread `{ ...work, ...updates }`. -/
def mergeUpd (w : WorkInfo) (u : WorkUpd) : WorkInfo :=
  ⟨u.rjCode.getD w.rjCode, u.title.getD w.title, u.circle.getD w.circle,
   u.authors.getD w.authors, u.tags.getD w.tags,
   u.description.getD w.description, u.thumbnailUrl.getD w.thumbnailUrl,
   u.localPath.getD w.localPath, u.fetchedAt.getD w.fetchedAt,
   (u.releaseDate.map some).getD w.releaseDate,
   (u.ageRating.map some).getD w.ageRating,
   (u.workType.map some).getD w.workType,
   (u.isHidden.map some).getD w.isHidden,
   (u.lastReadAt.map some).getD w.lastReadAt,
   (u.lastReadPage.map some).getD w.lastReadPage,
   (u.totalPages.map some).getD w.totalPages,
   (u.sampleImages.map some).getD w.sampleImages,
   (u.isFavorite.map some).getD w.isFavorite,
   (u.readingStatus.map some).getD w.readingStatus,
   (u.bindingDirection.map some).getD w.bindingDirection⟩

/-- The spread `updates = { ...updates, ...ensureThumbnail(scrapedInfo) }`:
the scraped record overrides exactly the fields `parseDLsitePage` sets. -/
def updFromScraped (u : WorkUpd) (wi : WorkInfo) : WorkUpd :=
  { u with rjCode := some wi.rjCode, title := some wi.title,
           circle := some wi.circle, authors := some wi.authors,
           tags := some wi.tags, description := some wi.description,
           thumbnailUrl := some wi.thumbnailUrl, localPath := some wi.localPath,
           fetchedAt := some wi.fetchedAt, releaseDate := wi.releaseDate,
           ageRating := wi.ageRating, workType := wi.workType,
           sampleImages := wi.sampleImages }

/-- `replace(/[\\/:*?"<>|]/g, '_')`. -/
def sanitizeFileName (s : String) : String :=
  String.mk (s.data.map (fun c =>
    if [0x5C, 0x2F, 0x3A, 0x2A, 0x3F, 0x22, 0x3C, 0x3E, 0x7C].contains c.toNat then '_'
    else c))

/-- `updateWorkInfo` (library.ts lines 843-962).  `renameO` models the
on-disk rename attempts, whose only catalog-visible effect is a
possibly-updated `localPath`; `scrapeO` the immediate online fetch when a
new catalog code is assigned.  Returns the saved flag and the new document. -/
def updateWorkInfoM
    (scrapeO : String → String → Except String (Option WorkInfo))
    (thumbO : WorkInfo → Option String)
    (renameO : WorkInfo → String → String)
    (lib : LibraryData) (rjCode : String) (upd : WorkUpd) : Bool × LibraryData :=
  match wlookup lib.works rjCode with
  | none => (false, lib)
  | some work0 =>
    let work1 :=
      match upd.title with
      | some t => if t != work0.title then { work0 with localPath := renameO work0 t } else work0
      | none => work0
    let explicitId :=
      match upd.rjCode with
      | some r => r != rjCode
      | none => false
    if explicitId then
      let newRjCode := jsUpper (jsTrim (upd.rjCode.getD ""))
      let updMerged :=
        if strStarts newRjCode "RJ" then
          match scrapeO newRjCode work1.localPath with
          | Except.ok (some si) =>
            updFromScraped { upd with rjCode := some newRjCode }
              (ensureThumbnail thumbO
                { si with rjCode := newRjCode, localPath := work1.localPath })
          | _ => { upd with rjCode := some newRjCode }
        else { upd with rjCode := some newRjCode }
      let work2 := { work1 with localPath := renameO work1 newRjCode }
      let ws1 := wdel lib.works rjCode
      let stored := { mergeUpd work2 updMerged with rjCode := newRjCode }
      (true, { lib with works := wset ws1 newRjCode stored })
    else
      let localRetitle := strStarts rjCode "LOCAL_" && upd.title.isSome
      let currentRjCode :=
        if localRetitle then
          let newId := generateWorkId (sanitizeFileName (upd.title.getD ""))
          if newId != rjCode then newId else rjCode
        else rjCode
      let ws1 := if currentRjCode != rjCode then wdel lib.works rjCode else lib.works
      let stored := { mergeUpd work1 upd with rjCode := currentRjCode }
      (true, { lib with works := wset ws1 currentRjCode stored })

/-- Key/field agreement of the works map: every entry's record carries the
entry's key in its `rjCode` field. -/
def agreeb (ws : Works) : Bool := ws.all (fun e => e.snd.rjCode == e.fst)

/-- Key/field agreement as a proposition. -/
def Agree (ws : Works) : Prop := ∀ e ∈ ws, e.snd.rjCode = e.fst

theorem agreeb_iff (ws : Works) : agreeb ws = true ↔ Agree ws := by
  simp [agreeb, Agree, List.all_eq_true]

/-! ## Helper lemmas about the works-map operations -/

theorem wlookup_wset_self (ws : Works) (k : String) (v : WorkInfo) :
    wlookup (wset ws k v) k = some v := by
  unfold wset
  by_cases hany : (ws.any fun e => e.fst == k) = true
  · rw [if_pos hany]
    unfold wlookup
    induction ws with
    | nil => simp at hany
    | cons e t ih =>
      simp only [List.map_cons]
      by_cases hek : (e.fst == k) = true
      · rw [if_pos hek]
        rw [List.find?_cons_of_pos]
        · rfl
        · simp
      · rw [if_neg hek]
        rw [List.find?_cons_of_neg]
        · apply ih
          simp only [List.any_cons, Bool.or_eq_true] at hany
          rcases hany with h1 | h2
          · exact absurd h1 hek
          · exact h2
        · exact hek
  · rw [if_neg hany]
    unfold wlookup
    induction ws with
    | nil => simp [List.find?]
    | cons e t ih =>
      simp only [List.any_cons, Bool.or_eq_true, not_or] at hany
      rw [List.cons_append, List.find?_cons_of_neg]
      · exact ih hany.2
      · exact hany.1

theorem wlookup_wdel_self (ws : Works) (k : String) :
    wlookup (wdel ws k) k = none := by
  unfold wlookup wdel
  induction ws with
  | nil => rfl
  | cons e t ih =>
    rw [List.filter_cons]
    by_cases hek : (e.fst == k) = true
    · rw [if_neg (by simp [bne, hek])]
      exact ih
    · rw [if_pos (by simp [bne, hek])]
      rw [List.find?_cons_of_neg]
      · exact ih
      · exact hek

theorem wlookup_wdel_ne (ws : Works) (k k' : String) (h : k' ≠ k) :
    wlookup (wdel ws k) k' = wlookup ws k' := by
  unfold wlookup wdel
  induction ws with
  | nil => rfl
  | cons e t ih =>
    rw [List.filter_cons]
    by_cases hek : (e.fst == k) = true
    · rw [if_neg (by simp [bne, hek])]
      rw [List.find?_cons_of_neg]
      · exact ih
      · have hf : e.fst = k := by simpa using hek
        rw [hf]
        simp only [beq_iff_eq]
        exact fun hh => h hh.symm
    · rw [if_pos (by simp [bne, hek])]
      by_cases hek' : (e.fst == k') = true
      · rw [List.find?_cons_of_pos, List.find?_cons_of_pos]
        · exact hek'
        · exact hek'
      · rw [List.find?_cons_of_neg, List.find?_cons_of_neg]
        · exact ih
        · exact hek'
        · exact hek'

theorem Agree.wsetP {ws : Works} {k : String} {v : WorkInfo}
    (h : Agree ws) (hv : v.rjCode = k) : Agree (wset ws k v) := by
  unfold wset
  split
  · intro e he
    rcases List.mem_map.mp he with ⟨e', he', rfl⟩
    by_cases hek : (e'.fst == k) = true
    · simp [hek, hv]
    · simp only [hek]
      rw [if_neg (by simp [hek])]
      exact h e' he'
  · intro e he
    rcases List.mem_append.mp he with h1 | h2
    · exact h e h1
    · simp only [List.mem_singleton] at h2
      subst h2
      exact hv

theorem Agree.wdelP {ws : Works} {k : String} (h : Agree ws) :
    Agree (wdel ws k) := fun e he => h e (List.mem_filter.mp he).1

theorem Agree.filterP {ws : Works} {p : String × WorkInfo → Bool} (h : Agree ws) :
    Agree (ws.filter p) := fun e he => h e (List.mem_filter.mp he).1

theorem wlookup_agree {ws : Works} {k : String} {w : WorkInfo}
    (h : Agree ws) (hl : wlookup ws k = some w) : w.rjCode = k := by
  unfold wlookup at hl
  cases hfind : ws.find? (fun e => e.fst == k) with
  | none => rw [hfind] at hl; cases hl
  | some e =>
    rw [hfind] at hl
    have hw : e.snd = w := by simpa using hl
    have hm := List.mem_of_find?_eq_some hfind
    have hp := List.find?_some hfind
    have ha := h e hm
    rw [← hw, ha]
    exact beq_iff_eq.mp hp

theorem foldl_pres {α σ : Type} (P : σ → Prop) (f : σ → α → σ)
    (hf : ∀ s a, P s → P (f s a)) :
    ∀ (l : List α) (s : σ), P s → P (l.foldl f s) := by
  intro l
  induction l with
  | nil => intro s h; exact h
  | cons a t ih =>
    intro s h
    exact ih (f s a) (hf s a h)

theorem ensureThumbnail_rjCode (o : WorkInfo → Option String) (w : WorkInfo) :
    (ensureThumbnail o w).rjCode = w.rjCode := by
  unfold ensureThumbnail
  split
  · rfl
  · split
    · rfl
    · split <;> rfl

theorem scrapeWorkInfoM_rjCode (scrapeO : String → String → Except String (Option WorkInfo))
    (rj p : String) (w : WorkInfo)
    (h : scrapeWorkInfoM scrapeO rj p = Except.ok (some w)) : w.rjCode = rj := by
  unfold scrapeWorkInfoM at h
  by_cases hl : strStarts rj "LOCAL_" = true
  · rw [if_pos hl] at h
    cases h
  · rw [if_neg hl] at h
    cases hs : scrapeO rj p with
    | error m => rw [hs] at h; cases h
    | ok o =>
      cases o with
      | none => rw [hs] at h; cases h
      | some w' =>
        rw [hs] at h
        injection h with h1
        injection h1 with h2
        rw [← h2]

theorem migrateStep_agree (c : Candidate) (ws : Works) (h : Agree ws) :
    Agree (migrateStep c ws) := by
  unfold migrateStep
  cases hf : ws.find? (fun e => e.snd.localPath == c.folderPath) with
  | none => exact h
  | some e =>
    dsimp only
    by_cases hid : (e.fst == c.rjCode) = true
    · rw [if_pos hid]
      exact h
    · rw [if_neg hid]
      apply Agree.wdelP
      by_cases hpl : isPlaceholderMig e.snd = true
      · rw [if_pos hpl]
        exact h
      · rw [if_neg hpl]
        exact Agree.wsetP h rfl

theorem processNew_agree
    (searchO : String → String → String → Bool → List String → Except String (Option WorkInfo))
    (scrapeO : String → String → Except String (Option WorkInfo))
    (thumbO : WorkInfo → Option String)
    (renameO : WorkInfo → String → String → String)
    (d : Bool) (now : String)
    (st : Works × ScanResult) (c : Candidate) (h : Agree st.1) :
    Agree (processNew searchO scrapeO thumbO renameO d now st c).1 := by
  unfold processNew
  by_cases hl : strStarts c.rjCode "LOCAL_" = true
  · rw [if_pos hl]
    cases hs : searchO (stripArchiveExt (basenameOf c.folderPath)) c.folderPath c.rjCode d [] with
    | error m => exact Agree.wsetP h (ensureThumbnail_rjCode _ _)
    | ok o =>
      cases o with
      | none => exact Agree.wsetP h (ensureThumbnail_rjCode _ _)
      | some wi =>
        show Agree (if _ then wdel _ c.rjCode else _)
        split
        · exact Agree.wdelP (Agree.wsetP h (ensureThumbnail_rjCode _ _))
        · exact Agree.wsetP h (ensureThumbnail_rjCode _ _)
  · rw [if_neg hl]
    cases hs : scrapeWorkInfoM scrapeO c.rjCode c.folderPath with
    | error m => exact Agree.wsetP h (ensureThumbnail_rjCode _ _)
    | ok o =>
      cases o with
      | none => exact Agree.wsetP h (ensureThumbnail_rjCode _ _)
      | some wi =>
        apply Agree.wsetP h
        rw [ensureThumbnail_rjCode]
        exact scrapeWorkInfoM_rjCode scrapeO c.rjCode c.folderPath wi hs

/-- The invariant of the accumulated `ScanResult`: `failed` stays zero and
`success` counts exactly the collected new ids. -/
def resInv (r : ScanResult) : Prop := r.failed = 0 ∧ r.success = r.newWorks.length

theorem processNew_resInv
    (searchO : String → String → String → Bool → List String → Except String (Option WorkInfo))
    (scrapeO : String → String → Except String (Option WorkInfo))
    (thumbO : WorkInfo → Option String)
    (renameO : WorkInfo → String → String → String)
    (d : Bool) (now : String)
    (st : Works × ScanResult) (c : Candidate) (h : resInv st.2) :
    resInv (processNew searchO scrapeO thumbO renameO d now st c).2 := by
  obtain ⟨h1, h2⟩ := h
  unfold processNew
  by_cases hl : strStarts c.rjCode "LOCAL_" = true
  · rw [if_pos hl]
    cases hs : searchO (stripArchiveExt (basenameOf c.folderPath)) c.folderPath c.rjCode d [] with
    | error m => exact ⟨h1, by simp [h2]⟩
    | ok o =>
      cases o with
      | none => exact ⟨h1, by simp [h2]⟩
      | some wi => exact ⟨h1, by simp [h2]⟩
  · rw [if_neg hl]
    cases hs : scrapeWorkInfoM scrapeO c.rjCode c.folderPath with
    | error m => exact ⟨h1, by simp [h2]⟩
    | ok o =>
      cases o with
      | none => exact ⟨h1, by simp [h2]⟩
      | some wi => exact ⟨h1, by simp [h2]⟩

theorem scanMain_agree
    (searchO : String → String → String → Bool → List String → Except String (Option WorkInfo))
    (scrapeO : String → String → Except String (Option WorkInfo))
    (thumbO : WorkInfo → Option String)
    (renameO : WorkInfo → String → String → String)
    (d : Bool) (now : String)
    (found : List Candidate) (total : Nat) (ws : Works) (h : Agree ws) :
    Agree (scanMain searchO scrapeO thumbO renameO d now found total ws).1 := by
  unfold scanMain migratePass
  refine foldl_pres (fun st : Works × ScanResult => Agree st.1)
    (processNew searchO scrapeO thumbO renameO d now)
    (fun s a hs => processNew_agree searchO scrapeO thumbO renameO d now s a hs) _ _ ?_
  refine foldl_pres Agree _ ?_ _ _ ?_
  · intro s a hs
    cases hlk : wlookup s a.rjCode with
    | none => exact hs
    | some w =>
      have hk : w.rjCode = a.rjCode := wlookup_agree hs hlk
      show Agree (wset s a.rjCode (ensureThumbnail thumbO { w with localPath := a.folderPath }))
      refine Agree.wsetP hs ?_
      rw [ensureThumbnail_rjCode]
      exact hk
  · exact foldl_pres Agree (fun acc (c : Candidate) => wdel acc c.rjCode)
      (fun s a hs => Agree.wdelP hs) _ _
      (foldl_pres Agree (fun acc (c : Candidate) => migrateStep c acc)
        (fun s a hs => migrateStep_agree a s hs) found ws h)

theorem scanMain_resInv
    (searchO : String → String → String → Bool → List String → Except String (Option WorkInfo))
    (scrapeO : String → String → Except String (Option WorkInfo))
    (thumbO : WorkInfo → Option String)
    (renameO : WorkInfo → String → String → String)
    (d : Bool) (now : String)
    (found : List Candidate) (total : Nat) (ws : Works) :
    resInv (scanMain searchO scrapeO thumbO renameO d now found total ws).2 := by
  unfold scanMain
  exact foldl_pres (fun st : Works × ScanResult => resInv st.2)
    (processNew searchO scrapeO thumbO renameO d now)
    (fun s a hs => processNew_resInv searchO scrapeO thumbO renameO d now s a hs)
    _ _ ⟨rfl, rfl⟩

set_option maxHeartbeats 1000000 in
theorem updateWorkInfoM_agree
    (scrapeO : String → String → Except String (Option WorkInfo))
    (thumbO : WorkInfo → Option String)
    (renameO : WorkInfo → String → String)
    (lib : LibraryData) (rjCode : String) (upd : WorkUpd)
    (h : Agree lib.works) :
    Agree (updateWorkInfoM scrapeO thumbO renameO lib rjCode upd).2.works := by
  unfold updateWorkInfoM
  cases hlk : wlookup lib.works rjCode with
  | none => exact h
  | some work0 =>
    dsimp only
    split
    · exact Agree.wsetP (Agree.wdelP h) rfl
    · refine Agree.wsetP ?_ rfl
      repeat' split
      all_goals first
        | exact Agree.wdelP h
        | exact h

theorem not_isEmpty_iff (L : List String) : (!L.isEmpty) = true ↔ L ≠ [] := by
  cases L <;> simp

/-! ## Claim theorems -/

/-- C1 (amended): every persisted record the classification pass treats as a
placeholder — circle one of the sentinels 未取得/エラー/未登録/未設定, tags
containing 未取得 or エラー, or a catalog-coded (RJ-prefixed) record whose
circle is the local-work marker — makes its candidate be classified as new on
the next scan of the same path, and in particular a record stored by the
fetch-failed fallback (circle and tags 未取得) is classified new.  (The
spec's further clause about local-id records marked not-found-online does not
hold of the code; see the counterexample.) -/
theorem placeholder_records_rescanned :
    (∀ (found : List Candidate) (ws : Works) (c : Candidate) (w : WorkInfo),
      c ∈ found → wlookup ws c.rjCode = some w → isPlaceholderClass w = true →
      c ∈ filterNewWorks found ws) ∧
    (∀ rj t p n, isPlaceholderClass (fetchFailedWork rj t p n) = true) := by
  constructor
  · intro found ws c w hc hlk hp
    apply List.mem_filter.mpr
    refine ⟨hc, ?_⟩
    show (match wlookup ws c.rjCode with
          | none => true
          | some w => isPlaceholderClass w) = true
    rw [hlk]
    exact hp
  · intro rj t p n
    rfl

/-- Witness for C1: a concrete fetch-failed record under the candidate's own
id is classified new. -/
theorem placeholder_records_rescanned_witness :
    (⟨"RJ111111", "/lib/a", false⟩ : Candidate) ∈
      filterNewWorks [⟨"RJ111111", "/lib/a", false⟩]
        [("RJ111111", fetchFailedWork "RJ111111" "T" "/lib/a" "t0")] :=
  placeholder_records_rescanned.1 _ _ _
    (fetchFailedWork "RJ111111" "T" "/lib/a" "t0")
    (by decide) (by decide) (by decide)

/-- Counterexample for C1 as stated: a local-id record whose circle marks it
not found online (exactly the record the scan stores in that case) satisfies
the spec's placeholder predicate, yet the classification does not treat its
candidate as new. -/
theorem localNotFound_not_reclassified_cex :
    specIsPlaceholder (localNotFoundWork "LOCAL_X" "T" "/lib/x" "t0") = true ∧
    filterNewWorks [⟨"LOCAL_X", "/lib/x", false⟩]
      [("LOCAL_X", localNotFoundWork "LOCAL_X" "T" "/lib/x" "t0")] = [] := by
  decide

/-- C2: invoking the scan while the scan-in-progress flag is set returns the
ScanOutcome with zero counts, empty new ids and the single error
"Already scanning", and leaves the catalog document untouched. -/
theorem scan_guard_rejects_when_scanning
    (searchO : String → String → String → Bool → List String → Except String (Option WorkInfo))
    (scrapeO : String → String → Except String (Option WorkInfo))
    (thumbO : WorkInfo → Option String)
    (renameO : WorkInfo → String → String → String)
    (fsExists : String → Bool)
    (now scanPath : String) (onlyDLsite : Bool)
    (found : List Candidate) (isScanningFlag : Bool) (lib : LibraryData)
    (h : isScanningFlag = true) :
    scanAndUpdateLibrary searchO scrapeO thumbO renameO fsExists now scanPath
      onlyDLsite found isScanningFlag lib
      = (⟨0, 0, 0, [], ["Already scanning"]⟩, lib) := by
  unfold scanAndUpdateLibrary
  rw [if_pos h]

/-- Witness for C2 at a concrete overlapping-scan state. -/
theorem scan_guard_witness :
    scanAndUpdateLibrary (fun _ _ _ _ _ => Except.ok none) (fun _ _ => Except.ok none)
      (fun _ => none) (fun w _ _ => w.localPath) (fun _ => true) "t0" "/lib" false
      [⟨"RJ000001", "/lib/a", false⟩] true ⟨["/lib"], []⟩
      = (⟨0, 0, 0, [], ["Already scanning"]⟩, ⟨["/lib"], []⟩) :=
  scan_guard_rejects_when_scanning _ _ _ _ _ _ _ _ _ _ _ rfl

/-- C3 (amended): censor glyphs in the candidate align positionally with the
query, and hole-punching accepts the candidate when the obscured run in the
query has the same length as the configured fuzzy word (the punched hole is
a fixed-length run of single-character wildcards, not a variable-length
gap). -/
theorem censor_wildcard_match :
    isGoodMatch "secret Diary" "●●●●●● Diary" [] = true ∧
    isGoodMatch "XXXXXX Diary" "secret Diary" ["secret"] = true := by
  decide

/-- Counterexample for C3 as stated: hole-punching does not accept
"X Diary" against "secret Diary" with fuzzy word "secret", because the hole
is six single-character wildcards while the query offers only one character
in that position. -/
theorem holePunch_fixed_length_cex :
    isGoodMatch "X Diary" "secret Diary" ["secret"] = false := by
  decide

/-- C4 (amended): the digit runs are extracted from the lowercased, trimmed
strings before the bracket/width normalization (JavaScript `\d`, ASCII
digits only); whenever those concatenated digit strings differ, isGoodMatch
rejects. -/
theorem digit_mismatch_rejects (q t : String) (fw : List String)
    (h : jsDigits (jsTrim (jsLower q)) ≠ jsDigits (jsTrim (jsLower t))) :
    isGoodMatch q t fw = false := by
  unfold isGoodMatch
  dsimp only
  rw [if_pos (bne_iff_ne.mpr h)]

/-- Witness for C4: the volume-number example from the spec. -/
theorem digit_mismatch_rejects_witness :
    jsDigits (jsTrim (jsLower "Story Vol.1")) ≠ jsDigits (jsTrim (jsLower "Story Vol.2")) ∧
    isGoodMatch "Story Vol.1" "Story Vol.2" [] = false :=
  ⟨by decide, digit_mismatch_rejects "Story Vol.1" "Story Vol.2" [] (by decide)⟩

/-- Counterexample for C4 as stated: extracting digits after normalization
(as the claim says) the two strings differ — the fullwidth ２ normalizes to
the digit 2 while the censor glyph does not — yet isGoodMatch accepts,
because the code compares digits before normalization, where neither string
has an ASCII digit. -/
theorem digits_after_normalization_cex :
    jsDigits (normalizeS (jsTrim (jsLower "Story●")))
      ≠ jsDigits (normalizeS (jsTrim (jsLower "Story２"))) ∧
    isGoodMatch "Story●" "Story２" [] = true := by
  decide

/-- C5 (amended): if the first record whose localPath matches the scanned
path is keyed A with A different from the candidate id B, then after the
migration step: when the record is healthy for the migration pass (circle
not a sentinel, tags without 未取得/エラー), key A is gone and key B holds
the old record with its id set to B and its old localPath (the scanned
path); when it is a migration-pass placeholder, it is dropped and the
candidate (with B unregistered) is classified new.  (The migration pass
treats a local-id record marked not-found-online as healthy and carries it
forward; see the counterexample.) -/
theorem rename_migration_behavior
    (ws : Works) (A B p : String) (arch : Bool) (w : WorkInfo)
    (hfind : ws.find? (fun e => e.snd.localPath == p) = some (A, w))
    (hAB : A ≠ B) :
    (isPlaceholderMig w = false →
      wlookup (migrateStep ⟨B, p, arch⟩ ws) A = none ∧
      wlookup (migrateStep ⟨B, p, arch⟩ ws) B = some { w with rjCode := B } ∧
      w.localPath = p) ∧
    (isPlaceholderMig w = true → wlookup ws B = none →
      wlookup (migrateStep ⟨B, p, arch⟩ ws) A = none ∧
      filterNewWorks [⟨B, p, arch⟩] (migrateStep ⟨B, p, arch⟩ ws)
        = [⟨B, p, arch⟩]) := by
  have hABb : ¬((A == B) = true) := by simp [hAB]
  have hM : migrateStep ⟨B, p, arch⟩ ws =
      (if isPlaceholderMig w = true then wdel ws A
       else wdel (wset ws B { w with rjCode := B }) A) := by
    unfold migrateStep
    dsimp only
    rw [hfind]
    dsimp only
    rw [if_neg hABb]
    split <;> rfl
  have hpath : w.localPath = p := by
    have := List.find?_some hfind
    simpa using this
  constructor
  · intro hnp
    rw [hM, if_neg (by simp [hnp])]
    refine ⟨wlookup_wdel_self _ _, ?_, hpath⟩
    rw [wlookup_wdel_ne _ _ _ (Ne.symm hAB)]
    exact wlookup_wset_self _ _ _
  · intro hp hfresh
    rw [hM, if_pos hp]
    refine ⟨wlookup_wdel_self _ _, ?_⟩
    have hBnone : wlookup (wdel ws A) B = none := by
      rw [wlookup_wdel_ne _ _ _ (Ne.symm hAB)]
      exact hfresh
    simp [filterNewWorks, hBnone]

/-- Concrete record for the C5 witness: a healthy (non-placeholder)
catalog entry. -/
def healthyWorkX : WorkInfo :=
  mkBaseWork "RJ000001" "T" "CircleX" [] [] "D" "" "/lib/x" "t0"

/-- Witness for C5: a healthy record keyed RJ000001 at /lib/x is migrated to
the candidate id RJ222222. -/
theorem rename_migration_behavior_witness :
    wlookup (migrateStep ⟨"RJ222222", "/lib/x", false⟩ [("RJ000001", healthyWorkX)])
        "RJ000001" = none ∧
    wlookup (migrateStep ⟨"RJ222222", "/lib/x", false⟩ [("RJ000001", healthyWorkX)])
        "RJ222222" = some { healthyWorkX with rjCode := "RJ222222" } ∧
    healthyWorkX.localPath = "/lib/x" :=
  (rename_migration_behavior [("RJ000001", healthyWorkX)] "RJ000001" "RJ222222"
    "/lib/x" false healthyWorkX (by decide) (by decide)).1 (by decide)

/-- Counterexample for C5 as stated: a local-id record marked
not-found-online is a placeholder per the spec, yet the migration pass
carries it forward under the new id instead of dropping it, and the
candidate is then not classified new. -/
theorem migration_keeps_local_placeholder_cex :
    specIsPlaceholder (localNotFoundWork "LOCAL_OLD" "T" "/lib/x" "t0") = true ∧
    wlookup (migrateStep ⟨"LOCAL_NEW", "/lib/x", false⟩
        [("LOCAL_OLD", localNotFoundWork "LOCAL_OLD" "T" "/lib/x" "t0")]) "LOCAL_NEW"
      = some { localNotFoundWork "LOCAL_OLD" "T" "/lib/x" "t0" with rjCode := "LOCAL_NEW" } ∧
    filterNewWorks [⟨"LOCAL_NEW", "/lib/x", false⟩]
      (migrateStep ⟨"LOCAL_NEW", "/lib/x", false⟩
        [("LOCAL_OLD", localNotFoundWork "LOCAL_OLD" "T" "/lib/x" "t0")]) = [] := by
  decide

/-- C6: the scan invokes the title search with the empty fuzzy-word list
regardless of anything else — the whole scan outcome depends on the search
oracle only through its value at fuzzyWords = [], so a configured Settings
fuzzy-word list can never influence a scan (library.ts line 465 omits the
argument and scraper.ts line 883 defaults it to []). -/
theorem scan_search_ignores_fuzzy_words
    (s₁ s₂ : String → String → String → Bool → List String → Except String (Option WorkInfo))
    (scrapeO : String → String → Except String (Option WorkInfo))
    (thumbO : WorkInfo → Option String)
    (renameO : WorkInfo → String → String → String)
    (fsExists : String → Bool)
    (now scanPath : String) (onlyDLsite : Bool)
    (found : List Candidate) (isScanningFlag : Bool) (lib : LibraryData)
    (h : ∀ t p w d, s₁ t p w d [] = s₂ t p w d []) :
    scanAndUpdateLibrary s₁ scrapeO thumbO renameO fsExists now scanPath
      onlyDLsite found isScanningFlag lib
    = scanAndUpdateLibrary s₂ scrapeO thumbO renameO fsExists now scanPath
      onlyDLsite found isScanningFlag lib := by
  have hp : processNew s₁ scrapeO thumbO renameO onlyDLsite now
      = processNew s₂ scrapeO thumbO renameO onlyDLsite now := by
    funext st c
    unfold processNew
    dsimp only
    rw [h (stripArchiveExt (basenameOf c.folderPath)) c.folderPath c.rjCode onlyDLsite]
  unfold scanAndUpdateLibrary scanMain
  rw [hp]

/-- Witness for C6: two concrete search oracles that agree only on the empty
fuzzy list (one would succeed for any non-empty list) give identical scans. -/
theorem scan_search_ignores_fuzzy_words_witness :
    scanAndUpdateLibrary
      (fun _ _ _ _ fw => if fw.isEmpty then Except.ok none else Except.error "x")
      (fun _ _ => Except.ok none) (fun _ => none) (fun w _ _ => w.localPath)
      (fun _ => true) "t0" "/lib" false [⟨"LOCAL_A", "/lib/a.zip", true⟩] false ⟨[], []⟩
    = scanAndUpdateLibrary
      (fun _ _ _ _ _ => Except.ok none)
      (fun _ _ => Except.ok none) (fun _ => none) (fun w _ _ => w.localPath)
      (fun _ => true) "t0" "/lib" false [⟨"LOCAL_A", "/lib/a.zip", true⟩] false ⟨[], []⟩ :=
  scan_search_ignores_fuzzy_words _ _ _ _ _ _ _ _ _ _ _ _
    (fun _ _ _ _ => rfl)

/-- C7: generateLocalId is a pure function of the filename — equal inputs
give the identical id — and every id it produces carries the local tag
prefix over the hash/fragment body. -/
theorem generateLocalId_deterministic :
    ∀ name : String, generateWorkId name = generateWorkId name ∧
      ∃ rest, generateWorkId name = "LOCAL_" ++ rest := by
  intro name
  refine ⟨rfl, ?_⟩
  unfold generateWorkId
  dsimp only
  split
  · exact ⟨_, rfl⟩
  · exact ⟨_, rfl⟩

/-- C8: the cleanup pass removes exactly the records whose localPath no
longer exists: kept entries are precisely the members whose path exists
(unchanged), the removed ids are precisely the keys whose record's path does
not exist, and the document is persisted iff something was removed. -/
theorem cleanup_removes_exactly_missing (fsExists : String → Bool) (ws : Works) :
    (∀ k w, (k, w) ∈ (cleanupMissingWorks fsExists ws).1 ↔
      ((k, w) ∈ ws ∧ fsExists w.localPath = true)) ∧
    (∀ k, k ∈ (cleanupMissingWorks fsExists ws).2.1 ↔
      ∃ w, (k, w) ∈ ws ∧ fsExists w.localPath = false) ∧
    ((cleanupMissingWorks fsExists ws).2.2 = true ↔
      (cleanupMissingWorks fsExists ws).2.1 ≠ []) := by
  unfold cleanupMissingWorks
  dsimp only
  refine ⟨?_, ?_, ?_⟩
  · intro k w
    simp [List.mem_filter]
  · intro k
    constructor
    · intro hk
      rcases List.mem_map.mp hk with ⟨e, he, rfl⟩
      rcases List.mem_filter.mp he with ⟨hmem, hcond⟩
      exact ⟨e.snd, hmem, by simpa using hcond⟩
    · rintro ⟨w, hmem, hcond⟩
      apply List.mem_map.mpr
      exact ⟨(k, w), List.mem_filter.mpr ⟨hmem, by simp [hcond]⟩, rfl⟩
  · exact not_isEmpty_iff _

/-- C9: every ScanOutcome the scan returns has failed = 0 and success equal
to the number of collected new ids: each processed new candidate — found,
not found, or thrown — increments success and appends its id exactly once,
and no path increments failed. -/
theorem scan_result_counts
    (searchO : String → String → String → Bool → List String → Except String (Option WorkInfo))
    (scrapeO : String → String → Except String (Option WorkInfo))
    (thumbO : WorkInfo → Option String)
    (renameO : WorkInfo → String → String → String)
    (fsExists : String → Bool)
    (now scanPath : String) (onlyDLsite : Bool)
    (found : List Candidate) (isScanningFlag : Bool) (lib : LibraryData) :
    (scanAndUpdateLibrary searchO scrapeO thumbO renameO fsExists now scanPath
      onlyDLsite found isScanningFlag lib).1.failed = 0 ∧
    (scanAndUpdateLibrary searchO scrapeO thumbO renameO fsExists now scanPath
      onlyDLsite found isScanningFlag lib).1.success
      = (scanAndUpdateLibrary searchO scrapeO thumbO renameO fsExists now scanPath
          onlyDLsite found isScanningFlag lib).1.newWorks.length := by
  unfold scanAndUpdateLibrary
  split
  · exact ⟨rfl, rfl⟩
  · dsimp only
    split <;> split
    all_goals first
      | exact ⟨rfl, rfl⟩
      | exact scanMain_resInv searchO scrapeO thumbO renameO onlyDLsite now found
          found.length _

/-- C10: key/field agreement — every record stored under key k carries
rjCode = k — is preserved by a full scan (migration, registrations, path
refresh, cleanup) and by updateWorkInfo. -/
theorem works_key_agreement_preserved :
    (∀ (searchO : String → String → String → Bool → List String → Except String (Option WorkInfo))
       (scrapeO : String → String → Except String (Option WorkInfo))
       (thumbO : WorkInfo → Option String)
       (renameO : WorkInfo → String → String → String)
       (fsExists : String → Bool)
       (now scanPath : String) (onlyDLsite : Bool)
       (found : List Candidate) (isScanningFlag : Bool) (lib : LibraryData),
      agreeb lib.works = true →
      agreeb (scanAndUpdateLibrary searchO scrapeO thumbO renameO fsExists now
        scanPath onlyDLsite found isScanningFlag lib).2.works = true) ∧
    (∀ (scrapeO : String → String → Except String (Option WorkInfo))
       (thumbO : WorkInfo → Option String)
       (renameO : WorkInfo → String → String)
       (lib : LibraryData) (rjCode : String) (upd : WorkUpd),
      agreeb lib.works = true →
      agreeb (updateWorkInfoM scrapeO thumbO renameO lib rjCode upd).2.works
        = true) := by
  constructor
  · intro searchO scrapeO thumbO renameO fsExists now scanPath onlyDLsite found flag lib h
    rw [agreeb_iff] at h ⊢
    unfold scanAndUpdateLibrary
    split
    · exact h
    · dsimp only
      split <;> split
      all_goals first
        | exact h
        | exact Agree.filterP (scanMain_agree searchO scrapeO thumbO renameO
            onlyDLsite now found found.length _ h)
  · intro scrapeO thumbO renameO lib rjCode upd h
    rw [agreeb_iff] at h ⊢
    exact updateWorkInfoM_agree scrapeO thumbO renameO lib rjCode upd h

/-- Witness for C10 at a concrete state with one correctly-keyed record. -/
theorem works_key_agreement_preserved_witness :
    agreeb (scanAndUpdateLibrary (fun _ _ _ _ _ => Except.ok none)
      (fun _ _ => Except.ok none) (fun _ => none) (fun w _ _ => w.localPath)
      (fun _ => true) "t0" "/lib" false [⟨"RJ111111", "/lib/a", false⟩] false
      ⟨[], [("RJ111111", fetchFailedWork "RJ111111" "T" "/lib/a" "t0")]⟩).2.works = true ∧
    agreeb (updateWorkInfoM (fun _ _ => Except.ok none) (fun _ => none)
      (fun w _ => w.localPath)
      ⟨[], [("RJ111111", fetchFailedWork "RJ111111" "T" "/lib/a" "t0")]⟩
      "RJ111111" noUpd).2.works = true :=
  ⟨works_key_agreement_preserved.1 _ _ _ _ _ _ _ _ _ _ _ (by decide),
   works_key_agreement_preserved.2 _ _ (fun w _ => w.localPath) _ _ _ (by decide)⟩

end Haco
